import Mathlib

/-!
Shallow embedding of `src/app.py` of the `reconciliation` repository:
the Etherscan USDT-transfer fetch/normalize pipeline, the Excel report
generator and the chain-id configuration resolver, together with proofs
of the frozen claims about them.

Numeric modelling: Python `int` is `ℤ`; Python `float` arithmetic on the
exactly representable quantities appearing here is modelled by exact
rationals `ℚ` (divisions are expressed with `Rat.divInt`, which is equal
to `ℚ` division by `Rat.divInt_eq_div`, so that all definitions evaluate
inside the kernel).  The network is modelled as an oracle assigning to
every page number the HTTP response the API would return for it; the
fetcher additionally counts the HTTP calls it issues and the inter-page
sleeps it performs, so that the pagination claims can be stated.
-/

-- ---------------------------------------------------------------------
-- Python string primitives used by the source
-- ---------------------------------------------------------------------

/-- Model of Python `str.lower()` (ASCII case folding, which covers every
string the source compares). -/
def pyLower (s : String) : String :=
  String.mk (s.toList.map Char.toLower)

/-- Drop leading whitespace characters from a character list. -/
def dropLeadingWs : List Char → List Char
  | [] => []
  | c :: cs => if c.isWhitespace then dropLeadingWs cs else c :: cs

/-- Model of Python `str.strip()`: remove leading and trailing whitespace. -/
def pyStrip (s : String) : String :=
  String.mk (dropLeadingWs (dropLeadingWs s.toList.reverse).reverse)

/-- Accumulate the decimal value of a digit list; `none` on any non-digit. -/
def digitsVal : List Char → ℕ → Option ℕ
  | [], acc => some acc
  | c :: cs, acc =>
    if c.isDigit then digitsVal cs (acc * 10 + (c.toNat - 48)) else none

/-- Parse an optionally signed, non-empty decimal digit sequence. -/
def pyIntCore : List Char → Option ℤ
  | [] => none
  | '+' :: rest => if rest = [] then none else (digitsVal rest 0).map Int.ofNat
  | '-' :: rest => if rest = [] then none else (digitsVal rest 0).map (fun n => -(n : ℤ))
  | cs => (digitsVal cs 0).map Int.ofNat

/-- Model of Python `int(s)` on a string: surrounding whitespace is
ignored, then an optional sign followed by decimal digits; `none` models
the `ValueError` raised on any other shape.  (Underscore digit separators,
which the source never receives, are not modelled.) -/
def pyInt? (s : String) : Option ℤ :=
  pyIntCore (pyStrip s).toList

-- ---------------------------------------------------------------------
-- Data model: API responses and normalized records (src/app.py)
-- ---------------------------------------------------------------------

/-- JSON scalar values the Etherscan envelope `status` field can carry. -/
inductive JVal where
  | str (v : String)
  | int (v : ℤ)
  | bool (v : Bool)
  | null
deriving DecidableEq

/-- One raw token-transfer item of the API `result` array; every field is
optional because the source reads each one with `item.get(...)`.  The
Python keys `"from"` and `"to"` are reserved Lean tokens, hence the field
names `from_addr` and `to_addr`. -/
structure RawItem where
  from_addr : Option String
  to_addr : Option String
  value : Option String
  hash : Option String
  timeStamp : Option String
  gasPrice : Option String
  gasUsed : Option String
deriving DecidableEq

/-- The parsed JSON envelope `{status, message, result}` of one page. -/
structure Payload where
  status : Option JVal
  message : Option String
  result : Option (List RawItem)
deriving DecidableEq

/-- An HTTP response: transport status code, raw body text, and the JSON
payload obtained from `resp.json()` when the body is consulted. -/
structure HttpResponse where
  status_code : ℕ
  text : String
  payload : Payload
deriving DecidableEq

/-- A normalized transfer record, as yielded by `_transform_and_filter`
(line 120-127 of `src/app.py`).  `timestamp` is the ISO-8601 rendering of
the UTC instant, exactly as `datetime.fromtimestamp(ts, tz=utc).isoformat()`
produces it. -/
structure Record where
  from_addr : Option String
  to_addr : Option String
  amount_usdt : ℚ
  tx_hash : Option String
  timestamp : String
  fee_eth : ℚ
deriving DecidableEq

/-- The exceptions the modelled code can raise: `EtherscanError` (called
`ConfigError`/`FetchError` by the spec) and the built-in `ValueError`
(raised by `int()` on bad input and by the report generator on an empty
list, where the spec calls it `EmptyExportError`). -/
inductive PyErr where
  | etherscanError (msg : String)
  | valueError (msg : String)
deriving DecidableEq

instance {ε α : Type} [DecidableEq ε] [DecidableEq α] : DecidableEq (Except ε α) :=
  fun a b =>
    match a, b with
    | .ok x, .ok y =>
      if h : x = y then isTrue (by rw [h]) else isFalse (by simp [h])
    | .error x, .error y =>
      if h : x = y then isTrue (by rw [h]) else isFalse (by simp [h])
    | .ok _, .error _ => isFalse (by simp)
    | .error _, .ok _ => isFalse (by simp)

-- ---------------------------------------------------------------------
-- Constants (src/app.py lines 14-19)
-- ---------------------------------------------------------------------

def DEFAULT_PAGE_SIZE : ℕ := 100

def DEFAULT_MAX_PAGES : ℕ := 5

def DEFAULT_CHAIN_ID : ℤ := 1

def USDT_DECIMALS : ℕ := 6

-- ---------------------------------------------------------------------
-- UTC ISO-8601 rendering of an epoch timestamp
-- ---------------------------------------------------------------------

/-- Zero-pad a natural number to two digits. -/
def pad2 (n : ℕ) : String :=
  if n < 10 then ("0") ++ toString n else toString n

/-- Zero-pad a natural number to four digits. -/
def pad4 (n : ℕ) : String :=
  if n < 10 then ("000") ++ toString n
  else if n < 100 then ("00") ++ toString n
  else if n < 1000 then ("0") ++ toString n
  else toString n

/-- Proleptic-Gregorian civil date (year, month, day) from a count of days
since 1970-01-01, the standard era-based conversion also used by CPython's
`datetime` for timezone-aware conversions. -/
def civilFromDays (z0 : ℤ) : ℤ × ℕ × ℕ :=
  let z : ℤ := z0 + 719468
  let era : ℤ := z.fdiv 146097
  let doe : ℕ := (z - era * 146097).toNat
  let yoe : ℕ := (doe - doe / 1460 + doe / 36524 - doe / 146096) / 365
  let y : ℤ := (yoe : ℤ) + era * 400
  let doy : ℕ := doe - (365 * yoe + yoe / 4 - yoe / 100)
  let mp : ℕ := (5 * doy + 2) / 153
  let d : ℕ := doy - (153 * mp + 2) / 5 + 1
  let m : ℕ := if mp < 10 then mp + 3 else mp - 9
  (if m ≤ 2 then y + 1 else y, m, d)

/-- Model of `datetime.fromtimestamp(ts, tz=timezone.utc).isoformat()` for
an integral epoch timestamp: `YYYY-MM-DDTHH:MM:SS+00:00`. -/
def isoformatUTC (ts : ℤ) : String :=
  let days : ℤ := ts.fdiv 86400
  let sod : ℕ := (ts - days * 86400).toNat
  let c := civilFromDays days
  pad4 c.1.toNat ++ ("-") ++ pad2 c.2.1 ++ ("-") ++ pad2 c.2.2 ++ ("T") ++
    pad2 (sod / 3600) ++ (":") ++ pad2 (sod % 3600 / 60) ++ (":") ++
    pad2 (sod % 60) ++ ("+00:00")

-- ---------------------------------------------------------------------
-- _transform_and_filter (src/app.py lines 109-127)
-- ---------------------------------------------------------------------

/-- Run Python `int` on a string, raising `ValueError` on failure. -/
def pyIntE (s : String) : Except PyErr ℤ :=
  match pyInt? s with
  | some n => .ok n
  | none => .error (.valueError (("invalid literal for int() with base 10: ") ++ s))

/-- The value-filter test `min_value is not None and amount < min_value`. -/
def belowMinValue (min_value : Option ℚ) (amount : ℚ) : Bool :=
  match min_value with
  | some mv => decide (amount < mv)
  | none => false

/-- One iteration of the `_transform_and_filter` generator body on a single
raw item: `.ok none` models the `continue` taken when the item is filtered
out, `.error` a propagating `ValueError` from `int()`.  Exactly as in the
source, the gas and timestamp fields are only parsed when the item survives
the value filter. -/
def transformItem (min_value : Option ℚ) (item : RawItem) : Except PyErr (Option Record) :=
  match pyIntE (item.value.getD ("0")) with
  | .error e => .error e
  | .ok v =>
    let amount : ℚ := Rat.divInt v ((10 : ℤ) ^ USDT_DECIMALS)
    if belowMinValue min_value amount then .ok none
    else
      match pyIntE (item.gasPrice.getD ("0")) with
      | .error e => .error e
      | .ok gas_price =>
        match pyIntE (item.gasUsed.getD ("0")) with
        | .error e => .error e
        | .ok gas_used =>
          let fee_eth : ℚ := Rat.divInt (gas_price * gas_used) ((10 : ℤ) ^ 18)
          match pyIntE (item.timeStamp.getD ("0")) with
          | .error e => .error e
          | .ok ts => .ok (some
              { from_addr := item.from_addr
                to_addr := item.to_addr
                amount_usdt := amount
                tx_hash := item.hash
                timestamp := isoformatUTC ts
                fee_eth := fee_eth })

/-- `list(_transform_and_filter(items, min_value))`: transform the items in
order, dropping the filtered ones, propagating the first `ValueError`. -/
def transformAndFilter (items : List RawItem) (min_value : Option ℚ) :
    Except PyErr (List Record) :=
  match items with
  | [] => .ok []
  | item :: rest =>
    match transformItem min_value item with
    | .error e => .error e
    | .ok r? =>
      match transformAndFilter rest min_value with
      | .error e => .error e
      | .ok rs =>
        match r? with
        | some r => .ok (r :: rs)
        | none => .ok rs

-- ---------------------------------------------------------------------
-- fetch_usdt_transfers (src/app.py lines 62-106)
-- ---------------------------------------------------------------------

/-- The envelope success test `status in ("1", 1, True)` (Python `==`
equates `1` and `True`, and each such value is its own tuple member). -/
def isSuccessStatus : Option JVal → Bool
  | some (.str ("1")) => true
  | some (.int 1) => true
  | some (.bool true) => true
  | _ => false

/-- The expression `payload.get("message") or "unknown error"`: a missing
or empty message string falls back to the default. -/
def msgOf (p : Payload) : String :=
  match p.message with
  | some m => if m = ("") then ("unknown error") else m
  | none => ("unknown error")

/-- The expression `payload.get("result") or []`. -/
def resultD (p : Payload) : List RawItem :=
  p.result.getD []

/-- Outcome of one fetch invocation: the accumulated records together with
the number of HTTP calls issued and of inter-page sleeps performed. -/
structure FetchResult where
  records : List Record
  calls : ℕ
  sleeps : ℕ
deriving DecidableEq

/-- The body of the `for page in range(1, max_pages + 1)` loop of
`fetch_usdt_transfers`, one constructor-recursive step per remaining page.
`R` is the network oracle giving the response each page's HTTP GET returns;
each iteration issues exactly one call.  Branches mirror lines 88-105 of
`src/app.py` in order: transport failure, envelope failure (benign
"no records found" breaks), empty result breaks, transform (a `ValueError`
propagates), short page breaks after extending, otherwise sleep and
continue. -/
def fetchGo (R : ℕ → HttpResponse) (page_size : ℕ) (min_value : Option ℚ) :
    ℕ → ℕ → List Record → ℕ → ℕ → Except PyErr FetchResult
  | _, 0, acc, calls, sleeps => .ok { records := acc, calls := calls, sleeps := sleeps }
  | page, rem + 1, acc, calls, sleeps =>
    let resp := R page
    if resp.status_code ≠ 200 then
      .error (.etherscanError
        (("Etherscan status ") ++ toString resp.status_code ++ (": ") ++ resp.text))
    else if isSuccessStatus resp.payload.status = false then
      if pyStrip (pyLower (msgOf resp.payload)) = ("no records found") then
        .ok { records := acc, calls := calls + 1, sleeps := sleeps }
      else
        .error (.etherscanError (("Etherscan error: ") ++ msgOf resp.payload))
    else
      let page_result := resultD resp.payload
      if page_result = [] then
        .ok { records := acc, calls := calls + 1, sleeps := sleeps }
      else
        match transformAndFilter page_result min_value with
        | .error e => .error e
        | .ok filtered =>
          if page_result.length < page_size then
            .ok { records := acc ++ filtered, calls := calls + 1, sleeps := sleeps }
          else
            fetchGo R page_size min_value (page + 1) rem (acc ++ filtered)
              (calls + 1) (sleeps + 1)

/-- `fetch_usdt_transfers`: run the page loop from page 1 with an empty
accumulator over at most `max_pages` pages. -/
def fetchUsdtTransfers (R : ℕ → HttpResponse) (page_size max_pages : ℕ)
    (min_value : Option ℚ) : Except PyErr FetchResult :=
  fetchGo R page_size min_value 1 max_pages [] 0 0

/-- Number of HTTP calls of a successful fetch. -/
def callsOf : Except PyErr FetchResult → Option ℕ
  | .ok r => some r.calls
  | .error _ => none

/-- Number of inter-page sleeps of a successful fetch. -/
def sleepsOf : Except PyErr FetchResult → Option ℕ
  | .ok r => some r.sleeps
  | .error _ => none

-- ---------------------------------------------------------------------
-- get_chain_id (src/app.py lines 43-58)
-- ---------------------------------------------------------------------

/-- `get_chain_id`, with the two ambient lookups made explicit arguments:
`secrets` is `st.secrets.get("ETHERSCAN_CHAIN_ID")` and `env` is
`os.getenv("ETHERSCAN_CHAIN_ID")` (both string-valued or absent).  The
bare `except: pass` around the secrets branch swallows the `ValueError`
of `int(chain_id)`, so a non-integer secret falls through; an empty
secret is falsy and also falls through.  An absent or empty environment
value yields the default; a non-integer one raises. -/
def get_chain_id (secrets env : Option String) : Except PyErr ℤ :=
  match secrets.bind (fun s => if s = ("") then none else pyInt? s) with
  | some n => .ok n
  | none =>
    match env with
    | none => .ok DEFAULT_CHAIN_ID
    | some v =>
      if v = ("") then .ok DEFAULT_CHAIN_ID
      else
        match pyInt? v with
        | some n => .ok n
        | none => .error (.etherscanError ("ETHERSCAN_CHAIN_ID must be an integer."))

-- ---------------------------------------------------------------------
-- generate_excel_report (src/app.py lines 130-153)
-- ---------------------------------------------------------------------

/-- A spreadsheet cell of the exported report. -/
inductive Cell where
  | str (v : String)
  | optStr (v : Option String)
  | num (v : ℚ)
deriving DecidableEq

/-- The in-memory spreadsheet content the byte buffer serializes: one sheet
with a header row and one cell row per record. -/
structure Report where
  sheet_name : String
  header : List String
  rows : List (List Cell)
deriving DecidableEq

/-- The fixed renamed column order of line 147 of `src/app.py`:
time, sender, receiver, amount, fee, transaction hash. -/
def EXPORT_COLUMNS : List String :=
  ["交易时间", "付款方 (From)", "收款方 (To)", "金额 (USDT)", "手续费 (ETH)", "交易哈希 (TxHash)"]

/-- One data row of the report, in the reordered column order. -/
def recordRow (r : Record) : List Cell :=
  [.str r.timestamp, .optStr r.from_addr, .optStr r.to_addr,
    .num r.amount_usdt, .num r.fee_eth, .optStr r.tx_hash]

/-- `generate_excel_report`: raise on an empty record list, otherwise build
the single-sheet report (the openpyxl byte serialization is abstracted to
the sheet content it encodes). -/
def generate_excel_report (records : List Record) : Except PyErr Report :=
  if records = [] then .error (.valueError ("No records to export."))
  else .ok
    { sheet_name := ("USDT_Transfers")
      header := EXPORT_COLUMNS
      rows := records.map recordRow }

-- ---------------------------------------------------------------------
-- Pagination predicates
-- ---------------------------------------------------------------------

/-- The benign "no records found" end-of-data test of line 95, as the code
performs it: `message.lower().strip() == "no records found"`. -/
def noRecordsMsg (p : Payload) : Prop :=
  pyStrip (pyLower (msgOf p)) = ("no records found")

instance (p : Payload) : Decidable (noRecordsMsg p) := by
  unfold noRecordsMsg; infer_instance

/-- A page response at which the code's loop stops gracefully (given that
it does not raise): non-success envelope, empty result array, or a raw
result array shorter than the page size. -/
def codeStops (r : HttpResponse) (page_size : ℕ) : Bool :=
  !isSuccessStatus r.payload.status || decide (resultD r.payload = []) ||
    decide ((resultD r.payload).length < page_size)

/-- The stopping condition exactly as the claim words it: the benign
message alone, an empty result array, or a short raw result array -
with no non-success requirement on the envelope status for the message
case. -/
def claimStops (r : HttpResponse) (page_size : ℕ) : Bool :=
  decide (noRecordsMsg r.payload) || decide (resultD r.payload = []) ||
    decide ((resultD r.payload).length < page_size)

/-- First page index in `page, page+1, ..., page+rem-1` satisfying `P`,
and the last index `page+rem-1` when none does (`page-1` when `rem = 0`). -/
def firstStopFrom (P : ℕ → Bool) : ℕ → ℕ → ℕ
  | page, 0 => page - 1
  | page, rem + 1 => if P page then page else firstStopFrom P (page + 1) rem

/-- Whether some page index in `page, ..., page+rem-1` satisfies `P`. -/
def anyStopFrom (P : ℕ → Bool) : ℕ → ℕ → Bool
  | _, 0 => false
  | page, rem + 1 => P page || anyStopFrom P (page + 1) rem

/-- The page at which the code's pagination stops (when every issued page
is benign): first of the graceful stop conditions, else `max_pages`. -/
def codeStopPage (R : ℕ → HttpResponse) (page_size max_pages : ℕ) : ℕ :=
  firstStopFrom (fun p => codeStops (R p) page_size) 1 max_pages

/-- The page at which the claim asserts pagination stops. -/
def claimStopPage (R : ℕ → HttpResponse) (page_size max_pages : ℕ) : ℕ :=
  firstStopFrom (fun p => claimStops (R p) page_size) 1 max_pages

/-- Whether a graceful stop condition occurs within the page budget. -/
def anyStop (R : ℕ → HttpResponse) (page_size max_pages : ℕ) : Bool :=
  anyStopFrom (fun p => codeStops (R p) page_size) 1 max_pages

/-- A page response the loop consumes without raising: transport success,
and either a success envelope whose items normalize without a `ValueError`,
or the benign "no records found" signal. -/
def benignPage (r : HttpResponse) (min_value : Option ℚ) : Prop :=
  r.status_code = 200 ∧
  (isSuccessStatus r.payload.status = true ∨ noRecordsMsg r.payload) ∧
  (isSuccessStatus r.payload.status = true →
    ∃ f, transformAndFilter (resultD r.payload) min_value = .ok f)

/-- A page response on which the loop raises `EtherscanError`: transport
failure, or a non-success envelope whose message is not the benign one. -/
def errorPage (r : HttpResponse) : Prop :=
  r.status_code ≠ 200 ∨
    (isSuccessStatus r.payload.status = false ∧ ¬ noRecordsMsg r.payload)

/-- A page response after which the loop proceeds to the next page:
transport success, success envelope, a full non-empty result array, and
items that normalize without a `ValueError`. -/
def continuePage (r : HttpResponse) (page_size : ℕ) (min_value : Option ℚ) : Prop :=
  r.status_code = 200 ∧ isSuccessStatus r.payload.status = true ∧
    resultD r.payload ≠ [] ∧ ¬ ((resultD r.payload).length < page_size) ∧
    ∃ f, transformAndFilter (resultD r.payload) min_value = .ok f

-- ---------------------------------------------------------------------
-- Concrete fixtures used by witnesses and counterexamples
-- ---------------------------------------------------------------------

/-- All present numeric fields of a raw item parse as decimal integers
(absent fields default to the parseable "0"). -/
def numericFieldsOk (item : RawItem) : Prop :=
  (pyInt? (item.value.getD ("0"))).isSome = true ∧
  (pyInt? (item.gasPrice.getD ("0"))).isSome = true ∧
  (pyInt? (item.gasUsed.getD ("0"))).isSome = true ∧
  (pyInt? (item.timeStamp.getD ("0"))).isSome = true

/-- A well-formed raw item: 5 micro-USDT, fee 1*2 wei, epoch timestamp. -/
def item0 : RawItem :=
  { from_addr := some ("0xa"), to_addr := some ("0xb"), value := some ("5"),
    hash := some ("0xh"), timeStamp := some ("0"), gasPrice := some ("1"),
    gasUsed := some ("2") }

/-- The record `item0` normalizes to. -/
def rec0 : Record :=
  { from_addr := some ("0xa"), to_addr := some ("0xb"),
    amount_usdt := Rat.divInt 5 ((10 : ℤ) ^ 6), tx_hash := some ("0xh"),
    timestamp := ("1970-01-01T00:00:00+00:00"),
    fee_eth := Rat.divInt 2 ((10 : ℤ) ^ 18) }

/-- The raw item of the spec scenario: `value = "1500000"`. -/
def demoValueItem : RawItem :=
  { from_addr := some ("0xsender"), to_addr := some ("0xreceiver"),
    value := some ("1500000"), hash := some ("0xhash"),
    timeStamp := some ("1700000000"), gasPrice := some ("3"),
    gasUsed := some ("4") }

/-- A raw item in which every field is absent. -/
def allMissingItem : RawItem :=
  { from_addr := none, to_addr := none, value := none, hash := none,
    timeStamp := none, gasPrice := none, gasUsed := none }

/-- A 200 response with a success envelope carrying the given items. -/
def successPage (items : List RawItem) : HttpResponse :=
  { status_code := 200, text := ("ok"),
    payload := { status := some (.str ("1")), message := some ("OK"),
                 result := some items } }

/-- A 200 response with the benign non-success "No records found" envelope. -/
def noRecordsPage : HttpResponse :=
  { status_code := 200, text := ("{}"),
    payload := { status := some (.str ("0")),
                 message := some ("No records found"), result := none } }

/-- An HTTP 500 response. -/
def transportFailPage : HttpResponse :=
  { status_code := 500, text := ("server error"),
    payload := { status := none, message := none, result := none } }

/-- A success page that is full at page size 1. -/
def fullSinglePage : HttpResponse :=
  successPage [item0]

/-- A success page whose message happens to be "No records found" while it
still carries a full result array (page size 1). -/
def noRecMsgFullPage : HttpResponse :=
  { status_code := 200, text := ("ok"),
    payload := { status := some (.str ("1")),
                 message := some ("No records found"), result := some [item0] } }

/-- A success page with an empty result array. -/
def emptySuccessPage : HttpResponse :=
  successPage []

/-- Oracle separating the claim's stop rule from the code's: page 1 is a
full success page whose message is the benign one, page 2 ends the data. -/
def Rclaim1 : ℕ → HttpResponse :=
  fun p => if p = 1 then noRecMsgFullPage else emptySuccessPage

/-- Page of 100 copies of `item0`. -/
def page100 : HttpResponse :=
  successPage (List.replicate 100 item0)

/-- Page of 40 copies of `item0`. -/
def page40 : HttpResponse :=
  successPage (List.replicate 40 item0)

/-- Oracle of the two-page scenario: a full first page, a short second. -/
def Rc6 : ℕ → HttpResponse :=
  fun p => if p = 1 then page100 else page40

-- ---------------------------------------------------------------------
-- Single-step unfolding lemmas for the fetch loop
-- ---------------------------------------------------------------------

lemma fetchGo_step_transport_error (R : ℕ → HttpResponse) (ps : ℕ) (mv : Option ℚ)
    (page rem : ℕ) (acc : List Record) (calls sleeps : ℕ)
    (h : (R page).status_code ≠ 200) :
    fetchGo R ps mv page (rem + 1) acc calls sleeps =
      .error (.etherscanError
        (("Etherscan status ") ++ toString (R page).status_code ++ (": ") ++ (R page).text)) := by
  simp [fetchGo, h]

lemma fetchGo_step_norec (R : ℕ → HttpResponse) (ps : ℕ) (mv : Option ℚ)
    (page rem : ℕ) (acc : List Record) (calls sleeps : ℕ)
    (h200 : (R page).status_code = 200)
    (hs : isSuccessStatus (R page).payload.status = false)
    (hmsg : noRecordsMsg (R page).payload) :
    fetchGo R ps mv page (rem + 1) acc calls sleeps =
      .ok { records := acc, calls := calls + 1, sleeps := sleeps } := by
  unfold noRecordsMsg at hmsg
  simp [fetchGo, h200, hs, hmsg]

lemma fetchGo_step_api_error (R : ℕ → HttpResponse) (ps : ℕ) (mv : Option ℚ)
    (page rem : ℕ) (acc : List Record) (calls sleeps : ℕ)
    (h200 : (R page).status_code = 200)
    (hs : isSuccessStatus (R page).payload.status = false)
    (hmsg : ¬ noRecordsMsg (R page).payload) :
    fetchGo R ps mv page (rem + 1) acc calls sleeps =
      .error (.etherscanError (("Etherscan error: ") ++ msgOf (R page).payload)) := by
  unfold noRecordsMsg at hmsg
  simp [fetchGo, h200, hs, hmsg]

lemma fetchGo_step_empty (R : ℕ → HttpResponse) (ps : ℕ) (mv : Option ℚ)
    (page rem : ℕ) (acc : List Record) (calls sleeps : ℕ)
    (h200 : (R page).status_code = 200)
    (hs : isSuccessStatus (R page).payload.status = true)
    (he : resultD (R page).payload = []) :
    fetchGo R ps mv page (rem + 1) acc calls sleeps =
      .ok { records := acc, calls := calls + 1, sleeps := sleeps } := by
  simp [fetchGo, h200, hs, he]

lemma fetchGo_step_transform_error (R : ℕ → HttpResponse) (ps : ℕ) (mv : Option ℚ)
    (page rem : ℕ) (acc : List Record) (calls sleeps : ℕ) (e : PyErr)
    (h200 : (R page).status_code = 200)
    (hs : isSuccessStatus (R page).payload.status = true)
    (hne : resultD (R page).payload ≠ [])
    (htr : transformAndFilter (resultD (R page).payload) mv = .error e) :
    fetchGo R ps mv page (rem + 1) acc calls sleeps = .error e := by
  simp [fetchGo, h200, hs, hne, htr]

lemma fetchGo_step_short (R : ℕ → HttpResponse) (ps : ℕ) (mv : Option ℚ)
    (page rem : ℕ) (acc : List Record) (calls sleeps : ℕ) (f : List Record)
    (h200 : (R page).status_code = 200)
    (hs : isSuccessStatus (R page).payload.status = true)
    (hne : resultD (R page).payload ≠ [])
    (htr : transformAndFilter (resultD (R page).payload) mv = .ok f)
    (hshort : (resultD (R page).payload).length < ps) :
    fetchGo R ps mv page (rem + 1) acc calls sleeps =
      .ok { records := acc ++ f, calls := calls + 1, sleeps := sleeps } := by
  simp [fetchGo, h200, hs, hne, htr, hshort]

lemma fetchGo_step_continue (R : ℕ → HttpResponse) (ps : ℕ) (mv : Option ℚ)
    (page rem : ℕ) (acc : List Record) (calls sleeps : ℕ) (f : List Record)
    (h200 : (R page).status_code = 200)
    (hs : isSuccessStatus (R page).payload.status = true)
    (hne : resultD (R page).payload ≠ [])
    (htr : transformAndFilter (resultD (R page).payload) mv = .ok f)
    (hfull : ¬ ((resultD (R page).payload).length < ps)) :
    fetchGo R ps mv page (rem + 1) acc calls sleeps =
      fetchGo R ps mv (page + 1) rem (acc ++ f) (calls + 1) (sleeps + 1) := by
  simp [fetchGo, h200, hs, hne, htr, hfull]

-- ---------------------------------------------------------------------
-- Loop characterization under benign responses (calls and sleeps)
-- ---------------------------------------------------------------------

lemma firstStopFrom_ge (P : ℕ → Bool) :
    ∀ rem page, page - 1 ≤ firstStopFrom P page rem := by
  intro rem
  induction rem with
  | zero => intro page; simp [firstStopFrom]
  | succ n ih =>
    intro page
    by_cases h : P page = true
    · simp [firstStopFrom, h]
    · rw [Bool.not_eq_true] at h
      have h1 := ih (page + 1)
      have h2 : firstStopFrom P page (n + 1) = firstStopFrom P (page + 1) n := by
        simp [firstStopFrom, h]
      omega

lemma fetchGo_benign (R : ℕ → HttpResponse) (ps : ℕ) (mv : Option ℚ) :
    ∀ rem page acc calls sleeps, 1 ≤ page →
    (∀ p, page ≤ p → p < page + rem → benignPage (R p) mv) →
    ∃ res, fetchGo R ps mv page rem acc calls sleeps = .ok res ∧
      res.calls = calls +
        (firstStopFrom (fun p => codeStops (R p) ps) page rem - (page - 1)) ∧
      (anyStopFrom (fun p => codeStops (R p) ps) page rem = true →
        res.sleeps + 1 = sleeps +
          (firstStopFrom (fun p => codeStops (R p) ps) page rem - (page - 1))) ∧
      (anyStopFrom (fun p => codeStops (R p) ps) page rem = false →
        res.sleeps = sleeps +
          (firstStopFrom (fun p => codeStops (R p) ps) page rem - (page - 1))) := by
  intro rem
  induction rem with
  | zero =>
    intro page acc calls sleeps hpage _
    refine ⟨_, rfl, ?_, ?_, ?_⟩
    · simp [firstStopFrom]
    · intro h; exact absurd h (by simp [anyStopFrom])
    · intro _; simp [firstStopFrom]
  | succ n ih =>
    intro page acc calls sleeps hpage hben
    obtain ⟨h200, hsor, htrok⟩ := hben page le_rfl (by omega)
    by_cases hstop : codeStops (R page) ps = true
    · have hfs : firstStopFrom (fun p => codeStops (R p) ps) page (n + 1) = page := by
        simp [firstStopFrom, hstop]
      have has : anyStopFrom (fun p => codeStops (R p) ps) page (n + 1) = true := by
        simp [anyStopFrom, hstop]
      have hnums : ∀ res : FetchResult, res.calls = calls + 1 → res.sleeps = sleeps →
          res.calls = calls +
            (firstStopFrom (fun p => codeStops (R p) ps) page (n + 1) - (page - 1)) ∧
          (anyStopFrom (fun p => codeStops (R p) ps) page (n + 1) = true →
            res.sleeps + 1 = sleeps +
              (firstStopFrom (fun p => codeStops (R p) ps) page (n + 1) - (page - 1))) ∧
          (anyStopFrom (fun p => codeStops (R p) ps) page (n + 1) = false →
            res.sleeps = sleeps +
              (firstStopFrom (fun p => codeStops (R p) ps) page (n + 1) - (page - 1))) := by
        intro res hc hs
        refine ⟨?_, fun _ => ?_, fun h => ?_⟩
        · rw [hfs]; omega
        · rw [hfs]; omega
        · rw [has] at h; cases h
      cases hs : isSuccessStatus (R page).payload.status with
      | false =>
        have hmsg : noRecordsMsg (R page).payload := by
          rcases hsor with h | h
          · rw [hs] at h; cases h
          · exact h
        exact ⟨_, fetchGo_step_norec R ps mv page n acc calls sleeps h200 hs hmsg,
          hnums _ rfl rfl⟩
      | true =>
        obtain ⟨f, htr⟩ := htrok hs
        by_cases hemp : resultD (R page).payload = []
        · exact ⟨_, fetchGo_step_empty R ps mv page n acc calls sleeps h200 hs hemp,
            hnums _ rfl rfl⟩
        · have hshort : (resultD (R page).payload).length < ps := by
            simp [codeStops, hs, hemp] at hstop
            exact hstop
          exact ⟨_, fetchGo_step_short R ps mv page n acc calls sleeps f
            h200 hs hemp htr hshort, hnums _ rfl rfl⟩
    · rw [Bool.not_eq_true] at hstop
      have hstop' := hstop
      simp only [codeStops, Bool.or_eq_false_iff, Bool.not_eq_false',
        decide_eq_false_iff_not] at hstop'
      obtain ⟨⟨hs, hemp⟩, hfull⟩ := hstop'
      obtain ⟨f, htr⟩ := htrok hs
      rw [fetchGo_step_continue R ps mv page n acc calls sleeps f h200 hs hemp htr hfull]
      obtain ⟨res, heq, hc2, hst2, hsf2⟩ := ih (page + 1) (acc ++ f) (calls + 1) (sleeps + 1)
        (by omega) (fun p hp1 hp2 => hben p (by omega) (by omega))
      have hfs : firstStopFrom (fun p => codeStops (R p) ps) page (n + 1) =
          firstStopFrom (fun p => codeStops (R p) ps) (page + 1) n := by
        simp [firstStopFrom, hstop]
      have has : anyStopFrom (fun p => codeStops (R p) ps) page (n + 1) =
          anyStopFrom (fun p => codeStops (R p) ps) (page + 1) n := by
        simp [anyStopFrom, hstop]
      have hge := firstStopFrom_ge (fun p => codeStops (R p) ps) n (page + 1)
      refine ⟨res, heq, ?_, ?_, ?_⟩
      · rw [hfs]; omega
      · rw [hfs, has]; intro h; have := hst2 h; omega
      · rw [hfs, has]; intro h; have := hsf2 h; omega

-- ---------------------------------------------------------------------
-- The only exceptions the transform step can raise are ValueErrors
-- ---------------------------------------------------------------------

lemma pyIntE_error (s : String) (e : PyErr) (h : pyIntE s = .error e) :
    ∃ m, e = .valueError m := by
  unfold pyIntE at h
  cases hp : pyInt? s with
  | some n => rw [hp] at h; cases h
  | none =>
    rw [hp] at h
    injection h with h'
    exact ⟨_, h'.symm⟩

lemma transformItem_error (mv : Option ℚ) (item : RawItem) (e : PyErr)
    (h : transformItem mv item = .error e) : ∃ m, e = .valueError m := by
  unfold transformItem at h
  cases hv : pyIntE (item.value.getD ("0")) with
  | error ev =>
    rw [hv] at h
    injection h with h'
    obtain ⟨m, hm⟩ := pyIntE_error _ _ hv
    exact ⟨m, h' ▸ hm⟩
  | ok v =>
    rw [hv] at h
    simp only at h
    by_cases hb : belowMinValue mv (Rat.divInt v ((10 : ℤ) ^ USDT_DECIMALS)) = true
    · rw [if_pos hb] at h; cases h
    · rw [if_neg hb] at h
      cases hgp : pyIntE (item.gasPrice.getD ("0")) with
      | error egp =>
        rw [hgp] at h
        injection h with h'
        obtain ⟨m, hm⟩ := pyIntE_error _ _ hgp
        exact ⟨m, h' ▸ hm⟩
      | ok gp =>
        rw [hgp] at h
        simp only at h
        cases hgu : pyIntE (item.gasUsed.getD ("0")) with
        | error egu =>
          rw [hgu] at h
          injection h with h'
          obtain ⟨m, hm⟩ := pyIntE_error _ _ hgu
          exact ⟨m, h' ▸ hm⟩
        | ok gu =>
          rw [hgu] at h
          simp only at h
          cases hts : pyIntE (item.timeStamp.getD ("0")) with
          | error ets =>
            rw [hts] at h
            injection h with h'
            obtain ⟨m, hm⟩ := pyIntE_error _ _ hts
            exact ⟨m, h' ▸ hm⟩
          | ok ts => rw [hts] at h; cases h

lemma transformAndFilter_error (items : List RawItem) (mv : Option ℚ) :
    ∀ e, transformAndFilter items mv = .error e → ∃ m, e = .valueError m := by
  induction items with
  | nil => intro e h; cases h
  | cons item rest ih =>
    intro e h
    unfold transformAndFilter at h
    cases hi : transformItem mv item with
    | error e1 =>
      rw [hi] at h
      injection h with h'
      obtain ⟨m, hm⟩ := transformItem_error mv item e1 hi
      exact ⟨m, h' ▸ hm⟩
    | ok r? =>
      rw [hi] at h
      simp only at h
      cases ht : transformAndFilter rest mv with
      | error e2 =>
        rw [ht] at h
        injection h with h'
        obtain ⟨m, hm⟩ := ih e2 ht
        exact ⟨m, h' ▸ hm⟩
      | ok rs =>
        rw [ht] at h
        cases r? with
        | some r => cases h
        | none => cases h

-- ---------------------------------------------------------------------
-- Exact characterization of when the loop raises EtherscanError
-- ---------------------------------------------------------------------

lemma fetchGo_ethErr_iff (R : ℕ → HttpResponse) (ps : ℕ) (mv : Option ℚ) :
    ∀ rem page acc calls sleeps,
    (∃ m, fetchGo R ps mv page rem acc calls sleeps = .error (.etherscanError m)) ↔
    (∃ p, page ≤ p ∧ p < page + rem ∧ errorPage (R p) ∧
      ∀ q, page ≤ q → q < p → continuePage (R q) ps mv) := by
  intro rem
  induction rem with
  | zero =>
    intro page acc calls sleeps
    constructor
    · rintro ⟨m, hm⟩
      exact Except.noConfusion hm
    · rintro ⟨p, hp1, hp2, _, _⟩
      omega
  | succ n ih =>
    intro page acc calls sleeps
    by_cases h200 : (R page).status_code = 200
    · cases hs : isSuccessStatus (R page).payload.status with
      | false =>
        by_cases hmsg : noRecordsMsg (R page).payload
        · rw [fetchGo_step_norec R ps mv page n acc calls sleeps h200 hs hmsg]
          apply iff_of_false
          · rintro ⟨m, hm⟩
            exact Except.noConfusion hm
          · rintro ⟨p, hp1, hp2, herr, hall⟩
            rcases Nat.eq_or_lt_of_le hp1 with rfl | hp
            · rcases herr with h | ⟨_, hnm⟩
              · exact h h200
              · exact hnm hmsg
            · obtain ⟨_, hq, _⟩ := hall page le_rfl hp
              rw [hs] at hq
              cases hq
        · rw [fetchGo_step_api_error R ps mv page n acc calls sleeps h200 hs hmsg]
          apply iff_of_true
          · exact ⟨_, rfl⟩
          · exact ⟨page, le_rfl, by omega, Or.inr ⟨hs, hmsg⟩,
              fun q hq1 hq2 => absurd hq1 (by omega)⟩
      | true =>
        by_cases hemp : resultD (R page).payload = []
        · rw [fetchGo_step_empty R ps mv page n acc calls sleeps h200 hs hemp]
          apply iff_of_false
          · rintro ⟨m, hm⟩
            exact Except.noConfusion hm
          · rintro ⟨p, hp1, hp2, herr, hall⟩
            rcases Nat.eq_or_lt_of_le hp1 with rfl | hp
            · rcases herr with h | ⟨hq, _⟩
              · exact h h200
              · rw [hs] at hq; cases hq
            · obtain ⟨_, _, hne, _⟩ := hall page le_rfl hp
              exact hne hemp
        · cases htr : transformAndFilter (resultD (R page).payload) mv with
          | error e =>
            rw [fetchGo_step_transform_error R ps mv page n acc calls sleeps e
              h200 hs hemp htr]
            apply iff_of_false
            · rintro ⟨m, hm⟩
              injection hm with h'
              obtain ⟨m2, hm2⟩ := transformAndFilter_error _ _ _ htr
              rw [hm2] at h'
              exact PyErr.noConfusion h'
            · rintro ⟨p, hp1, hp2, herr, hall⟩
              rcases Nat.eq_or_lt_of_le hp1 with rfl | hp
              · rcases herr with h | ⟨hq, _⟩
                · exact h h200
                · rw [hs] at hq; cases hq
              · obtain ⟨_, _, _, _, f, hf⟩ := hall page le_rfl hp
                rw [htr] at hf
                exact Except.noConfusion hf
          | ok f =>
            by_cases hshort : (resultD (R page).payload).length < ps
            · rw [fetchGo_step_short R ps mv page n acc calls sleeps f
                h200 hs hemp htr hshort]
              apply iff_of_false
              · rintro ⟨m, hm⟩
                exact Except.noConfusion hm
              · rintro ⟨p, hp1, hp2, herr, hall⟩
                rcases Nat.eq_or_lt_of_le hp1 with rfl | hp
                · rcases herr with h | ⟨hq, _⟩
                  · exact h h200
                  · rw [hs] at hq; cases hq
                · obtain ⟨_, _, _, hfull, _⟩ := hall page le_rfl hp
                  exact hfull hshort
            · rw [fetchGo_step_continue R ps mv page n acc calls sleeps f
                h200 hs hemp htr hshort]
              rw [ih (page + 1) (acc ++ f) (calls + 1) (sleeps + 1)]
              constructor
              · rintro ⟨p, hp1, hp2, herr, hall⟩
                refine ⟨p, by omega, by omega, herr, ?_⟩
                intro q hq1 hq2
                rcases Nat.eq_or_lt_of_le hq1 with rfl | hq
                · exact ⟨h200, hs, hemp, hshort, f, htr⟩
                · exact hall q (by omega) hq2
              · rintro ⟨p, hp1, hp2, herr, hall⟩
                have hpne : p ≠ page := by
                  rintro rfl
                  rcases herr with h | ⟨hq, _⟩
                  · exact h h200
                  · rw [hs] at hq; cases hq
                exact ⟨p, by omega, by omega, herr,
                  fun q hq1 hq2 => hall q (by omega) hq2⟩
    · rw [fetchGo_step_transport_error R ps mv page n acc calls sleeps h200]
      apply iff_of_true
      · exact ⟨_, rfl⟩
      · exact ⟨page, le_rfl, by omega, Or.inl h200,
          fun q hq1 hq2 => absurd hq1 (by omega)⟩

-- ---------------------------------------------------------------------
-- Running the loop through an initial run of continue pages
-- ---------------------------------------------------------------------

lemma fetchGo_skip (R : ℕ → HttpResponse) (ps : ℕ) (mv : Option ℚ) :
    ∀ n page rem acc calls sleeps,
    (∀ q, page ≤ q → q < page + n → continuePage (R q) ps mv) →
    n ≤ rem →
    ∃ acc2, fetchGo R ps mv page rem acc calls sleeps =
      fetchGo R ps mv (page + n) (rem - n) acc2 (calls + n) (sleeps + n) := by
  intro n
  induction n with
  | zero =>
    intro page rem acc c s _ _
    exact ⟨acc, by simp⟩
  | succ k ih =>
    intro page rem acc c s hcont hle
    obtain ⟨h200, hs, hemp, hfull, f, htr⟩ := hcont page le_rfl (by omega)
    obtain ⟨rem', rfl⟩ : ∃ r, rem = r + 1 := ⟨rem - 1, by omega⟩
    rw [fetchGo_step_continue R ps mv page rem' acc c s f h200 hs hemp htr hfull]
    obtain ⟨acc2, h2⟩ := ih (page + 1) rem' (acc ++ f) (c + 1) (s + 1)
      (fun q hq1 hq2 => hcont q (by omega) (by omega)) (by omega)
    refine ⟨acc2, ?_⟩
    have e1 : page + (k + 1) = page + 1 + k := by omega
    have e2 : rem' + 1 - (k + 1) = rem' - k := by omega
    have e3 : c + (k + 1) = c + 1 + k := by omega
    have e4 : s + (k + 1) = s + 1 + k := by omega
    rw [e1, e2, e3, e4, h2]

-- ---------------------------------------------------------------------
-- Normalization lemmas: success shape, filter bound, length preservation
-- ---------------------------------------------------------------------

lemma transformItem_ok (mv : Option ℚ) (item : RawItem) (v gp gu ts : ℤ)
    (hv : pyInt? (item.value.getD ("0")) = some v)
    (hgp : pyInt? (item.gasPrice.getD ("0")) = some gp)
    (hgu : pyInt? (item.gasUsed.getD ("0")) = some gu)
    (hts : pyInt? (item.timeStamp.getD ("0")) = some ts)
    (hflt : belowMinValue mv (Rat.divInt v ((10 : ℤ) ^ USDT_DECIMALS)) = false) :
    transformItem mv item = .ok (some
      { from_addr := item.from_addr
        to_addr := item.to_addr
        amount_usdt := Rat.divInt v ((10 : ℤ) ^ USDT_DECIMALS)
        tx_hash := item.hash
        timestamp := isoformatUTC ts
        fee_eth := Rat.divInt (gp * gu) ((10 : ℤ) ^ 18) }) := by
  simp [transformItem, pyIntE, hv, hgp, hgu, hts, hflt]

lemma transformItem_min (m : ℚ) (item : RawItem) (r : Record)
    (h : transformItem (some m) item = .ok (some r)) : m ≤ r.amount_usdt := by
  unfold transformItem at h
  cases hv : pyIntE (item.value.getD ("0")) with
  | error e => rw [hv] at h; exact Except.noConfusion h
  | ok v =>
    rw [hv] at h
    simp only at h
    by_cases hb : belowMinValue (some m) (Rat.divInt v ((10 : ℤ) ^ USDT_DECIMALS)) = true
    · rw [if_pos hb] at h
      injection h with h'
      exact Option.noConfusion h'
    · rw [if_neg hb] at h
      have hle : m ≤ Rat.divInt v ((10 : ℤ) ^ USDT_DECIMALS) := by
        unfold belowMinValue at hb
        simp only [decide_eq_true_eq] at hb
        exact le_of_not_lt hb
      cases hgp : pyIntE (item.gasPrice.getD ("0")) with
      | error e => rw [hgp] at h; exact Except.noConfusion h
      | ok gp =>
        rw [hgp] at h
        simp only at h
        cases hgu : pyIntE (item.gasUsed.getD ("0")) with
        | error e => rw [hgu] at h; exact Except.noConfusion h
        | ok gu =>
          rw [hgu] at h
          simp only at h
          cases hts : pyIntE (item.timeStamp.getD ("0")) with
          | error e => rw [hts] at h; exact Except.noConfusion h
          | ok ts =>
            rw [hts] at h
            injection h with h'
            injection h' with h''
            rw [← h'']
            exact hle

lemma transformAndFilter_min (m : ℚ) : ∀ (items : List RawItem) (recs : List Record),
    transformAndFilter items (some m) = .ok recs → ∀ r ∈ recs, m ≤ r.amount_usdt := by
  intro items
  induction items with
  | nil =>
    intro recs h r hr
    injection h with h'
    rw [← h'] at hr
    cases hr
  | cons item rest ih =>
    intro recs h r hr
    unfold transformAndFilter at h
    cases hi : transformItem (some m) item with
    | error e => rw [hi] at h; exact Except.noConfusion h
    | ok r? =>
      rw [hi] at h
      simp only at h
      cases ht : transformAndFilter rest (some m) with
      | error e => rw [ht] at h; exact Except.noConfusion h
      | ok rs =>
        rw [ht] at h
        cases r? with
        | some r1 =>
          injection h with h'
          rw [← h'] at hr
          cases List.mem_cons.mp hr with
          | inl h1 => exact h1 ▸ transformItem_min m item r1 hi
          | inr h2 => exact ih rs ht r h2
        | none =>
          injection h with h'
          rw [← h'] at hr
          exact ih rs ht r hr

lemma fetchGo_min (R : ℕ → HttpResponse) (ps : ℕ) (m : ℚ) :
    ∀ rem page acc calls sleeps res,
    (∀ r ∈ acc, m ≤ r.amount_usdt) →
    fetchGo R ps (some m) page rem acc calls sleeps = .ok res →
    ∀ r ∈ res.records, m ≤ r.amount_usdt := by
  intro rem
  induction rem with
  | zero =>
    intro page acc c s res hacc h r hr
    injection h with h'
    rw [← h'] at hr
    exact hacc r hr
  | succ n ih =>
    intro page acc c s res hacc h r hr
    by_cases h200 : (R page).status_code = 200
    · cases hs : isSuccessStatus (R page).payload.status with
      | false =>
        by_cases hmsg : noRecordsMsg (R page).payload
        · rw [fetchGo_step_norec R ps (some m) page n acc c s h200 hs hmsg] at h
          injection h with h'
          rw [← h'] at hr
          exact hacc r hr
        · rw [fetchGo_step_api_error R ps (some m) page n acc c s h200 hs hmsg] at h
          exact Except.noConfusion h
      | true =>
        by_cases hemp : resultD (R page).payload = []
        · rw [fetchGo_step_empty R ps (some m) page n acc c s h200 hs hemp] at h
          injection h with h'
          rw [← h'] at hr
          exact hacc r hr
        · cases htr : transformAndFilter (resultD (R page).payload) (some m) with
          | error e =>
            rw [fetchGo_step_transform_error R ps (some m) page n acc c s e
              h200 hs hemp htr] at h
            exact Except.noConfusion h
          | ok f =>
            have hif : ∀ r ∈ acc ++ f, m ≤ r.amount_usdt := by
              intro r2 hr2
              rcases List.mem_append.mp hr2 with h1 | h2
              · exact hacc r2 h1
              · exact transformAndFilter_min m _ f htr r2 h2
            by_cases hshort : (resultD (R page).payload).length < ps
            · rw [fetchGo_step_short R ps (some m) page n acc c s f
                h200 hs hemp htr hshort] at h
              injection h with h'
              rw [← h'] at hr
              exact hif r hr
            · rw [fetchGo_step_continue R ps (some m) page n acc c s f
                h200 hs hemp htr hshort] at h
              exact ih (page + 1) (acc ++ f) (c + 1) (s + 1) res hif h r hr
    · rw [fetchGo_step_transport_error R ps (some m) page n acc c s h200] at h
      exact Except.noConfusion h

lemma transformItem_none_some (item : RawItem) (r? : Option Record)
    (h : transformItem none item = .ok r?) : ∃ r, r? = some r := by
  unfold transformItem at h
  cases hv : pyIntE (item.value.getD ("0")) with
  | error e => rw [hv] at h; exact Except.noConfusion h
  | ok v =>
    rw [hv] at h
    simp only [belowMinValue, Bool.false_eq_true, if_false] at h
    cases hgp : pyIntE (item.gasPrice.getD ("0")) with
    | error e => rw [hgp] at h; exact Except.noConfusion h
    | ok gp =>
      rw [hgp] at h
      simp only at h
      cases hgu : pyIntE (item.gasUsed.getD ("0")) with
      | error e => rw [hgu] at h; exact Except.noConfusion h
      | ok gu =>
        rw [hgu] at h
        simp only at h
        cases hts : pyIntE (item.timeStamp.getD ("0")) with
        | error e => rw [hts] at h; exact Except.noConfusion h
        | ok ts =>
          rw [hts] at h
          injection h with h'
          exact ⟨_, h'.symm⟩

lemma transformAndFilter_none_len : ∀ (items : List RawItem) (recs : List Record),
    transformAndFilter items none = .ok recs → recs.length = items.length := by
  intro items
  induction items with
  | nil =>
    intro recs h
    injection h with h'
    rw [← h']
    rfl
  | cons item rest ih =>
    intro recs h
    unfold transformAndFilter at h
    cases hi : transformItem none item with
    | error e => rw [hi] at h; exact Except.noConfusion h
    | ok r? =>
      rw [hi] at h
      simp only at h
      obtain ⟨r, rfl⟩ := transformItem_none_some item r? hi
      cases ht : transformAndFilter rest none with
      | error e => rw [ht] at h; exact Except.noConfusion h
      | ok rs =>
        rw [ht] at h
        injection h with h'
        rw [← h']
        simp [ih rs ht]

lemma firstStopFrom_of_no_stop (P : ℕ → Bool) :
    ∀ rem page, anyStopFrom P page rem = false →
      firstStopFrom P page rem = page + rem - 1 := by
  intro rem
  induction rem with
  | zero =>
    intro page _
    simp [firstStopFrom]
  | succ n ih =>
    intro page h
    simp only [anyStopFrom, Bool.or_eq_false_iff] at h
    obtain ⟨h1, h2⟩ := h
    have h3 := ih (page + 1) h2
    have heq : firstStopFrom P page (n + 1) = firstStopFrom P (page + 1) n := by
      simp [firstStopFrom, h1]
    rw [heq, h3]
    omega

lemma pyIntDefault_zero (o : Option String) (n : ℤ) (ho : o = none)
    (h : pyInt? (o.getD ("0")) = some n) : n = 0 := by
  rw [ho, Option.getD_none] at h
  have h0 : pyInt? (("0")) = some 0 := by decide
  rw [h0] at h
  injection h with h'
  exact h'.symm

-- ---------------------------------------------------------------------
-- Claim C1
-- ---------------------------------------------------------------------

/-- C1 counterexample: on a response sequence of successful pages where
page 1 carries the message "No records found" together with a success
envelope status and a full result array (page size 1), the claim's stop
rule (`claimStopPage`) says pagination stops at page 1, yet the code
issues a second HTTP call: the message alone does not stop paging when
the envelope status indicates success. -/
theorem c1_counterexample :
    claimStopPage Rclaim1 1 5 = 1 ∧
    callsOf (fetchUsdtTransfers Rclaim1 1 5 none) = some 2 := by
  constructor
  · decide
  · decide

/-- C1 (amended): for every sequence of benign page responses (HTTP 200
and either a success envelope whose items normalize cleanly or the benign
"no records found" signal), `fetch_usdt_transfers` succeeds and issues
exactly `codeStopPage` HTTP calls: it stops at the first of (a) a page
whose envelope status is non-success - whose message, given benignity, is
"no records found" (any case, surrounding whitespace ignored) - (b) a page
whose result array is empty, (c) a page whose raw result array is strictly
shorter than `page_size`, or (d) the `max_pages`-th page; after the
stopping page no further HTTP call is issued. -/
theorem c1_stop_page_amended (R : ℕ → HttpResponse) (ps : ℕ) (mv : Option ℚ) (mp : ℕ)
    (hben : ∀ p, 1 ≤ p → p ≤ mp → benignPage (R p) mv) :
    ∃ res, fetchUsdtTransfers R ps mp mv = .ok res ∧
      res.calls = codeStopPage R ps mp := by
  obtain ⟨res, heq, hc, _, _⟩ := fetchGo_benign R ps mv mp 1 [] 0 0 le_rfl
    (fun p hp1 hp2 => hben p hp1 (by omega))
  refine ⟨res, heq, ?_⟩
  simpa [codeStopPage] using hc

/-- C1 witness: a concrete benign run (every page a success page with an
empty result) satisfying the amended statement's hypotheses. -/
theorem c1_stop_page_amended_witness :
    ∃ res, fetchUsdtTransfers (fun _ => emptySuccessPage) 100 3 none = .ok res ∧
      res.calls = codeStopPage (fun _ => emptySuccessPage) 100 3 :=
  c1_stop_page_amended (fun _ => emptySuccessPage) 100 none 3
    (fun _ _ _ => ⟨rfl, Or.inl rfl, fun _ => ⟨[], rfl⟩⟩)

-- ---------------------------------------------------------------------
-- Claim C2
-- ---------------------------------------------------------------------

/-- C2: whenever the numeric strings of a raw item parse, the normalizer
yields a record whose amount is the integer value of `value` divided by
10^6 and whose fee is the product of `gasPrice` and `gasUsed` divided by
10^18 (exact rational arithmetic; Python floats represent these scenario
values exactly). -/
theorem c2_normalize_formulas (item : RawItem) (v gp gu ts : ℤ)
    (hv : pyInt? (item.value.getD ("0")) = some v)
    (hgp : pyInt? (item.gasPrice.getD ("0")) = some gp)
    (hgu : pyInt? (item.gasUsed.getD ("0")) = some gu)
    (hts : pyInt? (item.timeStamp.getD ("0")) = some ts) :
    ∃ rec, transformItem none item = .ok (some rec) ∧
      rec.amount_usdt = (v : ℚ) / 1000000 ∧
      rec.fee_eth = (gp : ℚ) * (gu : ℚ) / 1000000000000000000 := by
  refine ⟨_, transformItem_ok none item v gp gu ts hv hgp hgu hts rfl, ?_, ?_⟩
  · show Rat.divInt v ((10 : ℤ) ^ USDT_DECIMALS) = (v : ℚ) / 1000000
    rw [Rat.divInt_eq_div]
    norm_num [USDT_DECIMALS]
  · show Rat.divInt (gp * gu) ((10 : ℤ) ^ 18) = (gp : ℚ) * (gu : ℚ) / 1000000000000000000
    rw [Rat.divInt_eq_div]
    push_cast
    norm_num

/-- C2 witness: the scenario item with `value = "1500000"` normalizes to
amount 1.5. -/
theorem c2_normalize_formulas_witness :
    ∃ rec, transformItem none demoValueItem = .ok (some rec) ∧
      rec.amount_usdt = (1.5 : ℚ) := by
  obtain ⟨rec, h1, h2, h3⟩ := c2_normalize_formulas demoValueItem 1500000 3 4 1700000000
    (by decide) (by decide) (by decide) (by decide)
  refine ⟨rec, h1, ?_⟩
  rw [h2]
  norm_num

-- ---------------------------------------------------------------------
-- Claim C3
-- ---------------------------------------------------------------------

/-- C3: when `min_value` is supplied, every record a successful fetch
returns has amount at least `min_value`; when it is unset, the transform
step never drops an item - it yields exactly one record per raw item. -/
theorem c3_min_value_filter :
    (∀ (R : ℕ → HttpResponse) (ps mp : ℕ) (m : ℚ) (res : FetchResult),
      fetchUsdtTransfers R ps mp (some m) = .ok res →
      ∀ r ∈ res.records, m ≤ r.amount_usdt) ∧
    (∀ (items : List RawItem) (recs : List Record),
      transformAndFilter items none = .ok recs → recs.length = items.length) := by
  constructor
  · intro R ps mp m res h r hr
    exact fetchGo_min R ps m mp 1 [] 0 0 res (fun r2 hr2 => by cases hr2) h r hr
  · exact transformAndFilter_none_len

/-- C3 witness: a concrete fetch with `min_value = 0` whose returned
records all satisfy the bound. -/
theorem c3_min_value_filter_witness :
    ∀ r ∈ ({ records := [rec0], calls := 1, sleeps := 0 } : FetchResult).records,
      (0 : ℚ) ≤ r.amount_usdt :=
  c3_min_value_filter.1 (fun _ => fullSinglePage) 100 1 0
    { records := [rec0], calls := 1, sleeps := 0 } (by decide)

-- ---------------------------------------------------------------------
-- Claim C4
-- ---------------------------------------------------------------------

/-- C4: the fetcher raises `EtherscanError` (the spec's `FetchError`) if
and only if the first page at which the loop does not continue - all
earlier pages being full success pages that normalize cleanly - is within
the page budget and is either a non-200 response or a non-success envelope
whose message is not the benign one; and on a transport failure the raised
error carries the HTTP status and the response body.  (In the model an
`Except.error` outcome carries no records, so any partial accumulation is
discarded by construction.) -/
theorem c4_fetch_error_iff (R : ℕ → HttpResponse) (ps : ℕ) (mv : Option ℚ) (mp : ℕ) :
    ((∃ m, fetchUsdtTransfers R ps mp mv = .error (.etherscanError m)) ↔
      (∃ p, 1 ≤ p ∧ p ≤ mp ∧ errorPage (R p) ∧
        ∀ q, 1 ≤ q → q < p → continuePage (R q) ps mv)) ∧
    (∀ p, 1 ≤ p → p ≤ mp →
      (∀ q, 1 ≤ q → q < p → continuePage (R q) ps mv) →
      (R p).status_code ≠ 200 →
      fetchUsdtTransfers R ps mp mv = .error (.etherscanError
        (("Etherscan status ") ++ toString (R p).status_code ++ (": ") ++ (R p).text))) := by
  constructor
  · have h := fetchGo_ethErr_iff R ps mv mp 1 [] 0 0
    constructor
    · intro hl
      obtain ⟨p, a, b, c, d⟩ := h.mp hl
      exact ⟨p, a, by omega, c, d⟩
    · rintro ⟨p, a, b, c, d⟩
      exact h.mpr ⟨p, a, by omega, c, d⟩
  · intro p hp1 hp2 hcont h200
    obtain ⟨acc2, hskip⟩ := fetchGo_skip R ps mv (p - 1) 1 mp [] 0 0
      (fun q hq1 hq2 => hcont q hq1 (by omega)) (by omega)
    unfold fetchUsdtTransfers
    rw [hskip]
    have e1 : 1 + (p - 1) = p := by omega
    obtain ⟨r', hr'⟩ : ∃ r, mp - (p - 1) = r + 1 := ⟨mp - (p - 1) - 1, by omega⟩
    rw [e1, hr']
    exact fetchGo_step_transport_error R ps mv p r' acc2 (0 + (p - 1)) (0 + (p - 1)) h200

/-- C4 witness: a concrete HTTP 500 on page 1 makes the fetch raise. -/
theorem c4_fetch_error_iff_witness :
    ∃ m, fetchUsdtTransfers (fun _ => transportFailPage) 100 5 none =
      .error (.etherscanError m) :=
  (c4_fetch_error_iff (fun _ => transportFailPage) 100 none 5).1.mpr
    ⟨1, le_rfl, by omega, Or.inl (by decide),
      fun q hq1 hq2 => absurd hq1 (by omega)⟩

-- ---------------------------------------------------------------------
-- Claim C5
-- ---------------------------------------------------------------------

/-- C5: a page whose envelope status is non-success but whose message,
lowercased and trimmed, is "no records found" is not an error: the loop
returns exactly the records accumulated so far; in particular when page 1
is such a page the fetcher issues exactly one HTTP call, returns the empty
list and raises nothing. -/
theorem c5_no_records_benign :
    (∀ (R : ℕ → HttpResponse) (ps : ℕ) (mv : Option ℚ) (page rem : ℕ)
        (acc : List Record) (calls sleeps : ℕ),
      (R page).status_code = 200 →
      isSuccessStatus (R page).payload.status = false →
      noRecordsMsg (R page).payload →
      fetchGo R ps mv page (rem + 1) acc calls sleeps =
        .ok { records := acc, calls := calls + 1, sleeps := sleeps }) ∧
    (∀ (R : ℕ → HttpResponse) (ps : ℕ) (mv : Option ℚ) (mp : ℕ),
      (R 1).status_code = 200 →
      isSuccessStatus (R 1).payload.status = false →
      noRecordsMsg (R 1).payload →
      1 ≤ mp →
      fetchUsdtTransfers R ps mp mv = .ok { records := [], calls := 1, sleeps := 0 }) := by
  constructor
  · exact fun R ps mv page rem acc calls sleeps h200 hs hmsg =>
      fetchGo_step_norec R ps mv page rem acc calls sleeps h200 hs hmsg
  · intro R ps mv mp h200 hs hmsg hmp
    obtain ⟨k, rfl⟩ : ∃ k, mp = k + 1 := ⟨mp - 1, by omega⟩
    exact fetchGo_step_norec R ps mv 1 k [] 0 0 h200 hs hmsg

/-- C5 witness: the scenario page `{status:"0", message:"No records
found"}` on page 1 yields one call, no records, no error. -/
theorem c5_no_records_benign_witness :
    fetchUsdtTransfers (fun _ => noRecordsPage) 100 5 none =
      .ok { records := [], calls := 1, sleeps := 0 } :=
  c5_no_records_benign.2 (fun _ => noRecordsPage) 100 none 5 rfl rfl (by decide)
    (by omega)

-- ---------------------------------------------------------------------
-- Claim C6
-- ---------------------------------------------------------------------

/-- C6: if page 1 is a success page of 100 raw items normalizing to 100
records (all passing the filter, page size 100) and page 2 a success page
of 40 raw items normalizing to 40 records, the fetcher issues exactly two
HTTP calls and returns the 140 records in API order: page 1's records
followed by page 2's, each page in its own order. -/
theorem c6_two_page_scenario (R : ℕ → HttpResponse) (mv : Option ℚ) (mp : ℕ)
    (r1 r2 : List Record)
    (h1c : (R 1).status_code = 200)
    (h1s : isSuccessStatus (R 1).payload.status = true)
    (h1n : (resultD (R 1).payload).length = 100)
    (h1t : transformAndFilter (resultD (R 1).payload) mv = .ok r1)
    (h1l : r1.length = 100)
    (h2c : (R 2).status_code = 200)
    (h2s : isSuccessStatus (R 2).payload.status = true)
    (h2n : (resultD (R 2).payload).length = 40)
    (h2t : transformAndFilter (resultD (R 2).payload) mv = .ok r2)
    (h2l : r2.length = 40)
    (hmp : 2 ≤ mp) :
    fetchUsdtTransfers R 100 mp mv =
      .ok { records := r1 ++ r2, calls := 2, sleeps := 1 } ∧
    (r1 ++ r2).length = 140 := by
  constructor
  · obtain ⟨k, rfl⟩ : ∃ k, mp = k + 2 := ⟨mp - 2, by omega⟩
    unfold fetchUsdtTransfers
    have hne1 : resultD (R 1).payload ≠ [] := by
      intro hh
      rw [hh] at h1n
      simp at h1n
    have hfull1 : ¬ ((resultD (R 1).payload).length < 100) := by omega
    rw [show k + 2 = (k + 1) + 1 from rfl]
    rw [fetchGo_step_continue R 100 mv 1 (k + 1) [] 0 0 r1 h1c h1s hne1 h1t hfull1]
    have hne2 : resultD (R 2).payload ≠ [] := by
      intro hh
      rw [hh] at h2n
      simp at h2n
    have hshort2 : (resultD (R 2).payload).length < 100 := by omega
    rw [show (1 : ℕ) + 1 = 2 from rfl]
    rw [fetchGo_step_short R 100 mv 2 k ([] ++ r1) 1 1 r2 h2c h2s hne2 h2t hshort2]
    simp
  · rw [List.length_append]
    omega

set_option maxRecDepth 100000 in
set_option maxHeartbeats 1000000 in
/-- C6 witness: the concrete two-page oracle of 100 and 40 copies of
`item0` with no filter. -/
theorem c6_two_page_scenario_witness :
    fetchUsdtTransfers Rc6 100 2 none =
      .ok { records := List.replicate 100 rec0 ++ List.replicate 40 rec0,
            calls := 2, sleeps := 1 } ∧
    (List.replicate 100 rec0 ++ List.replicate 40 rec0).length = 140 :=
  c6_two_page_scenario Rc6 none 2 (List.replicate 100 rec0) (List.replicate 40 rec0)
    (by decide) (by decide) (by decide) (by decide) (by decide)
    (by decide) (by decide) (by decide) (by decide) (by decide) (by omega)

-- ---------------------------------------------------------------------
-- Claim C7
-- ---------------------------------------------------------------------

/-- C7: the report exporter raises on an empty record list (the model's
`ValueError`, the spec's `EmptyExportError`), and on a non-empty list
produces a single-sheet report whose columns are, in order: time, sender,
receiver, amount, fee, transaction hash. -/
theorem c7_report_export :
    generate_excel_report [] = .error (.valueError ("No records to export.")) ∧
    (∀ recs : List Record, recs ≠ [] →
      ∃ rep, generate_excel_report recs = .ok rep ∧
        rep.sheet_name = ("USDT_Transfers") ∧
        rep.header = ["交易时间", "付款方 (From)", "收款方 (To)", "金额 (USDT)",
          "手续费 (ETH)", "交易哈希 (TxHash)"] ∧
        rep.rows = recs.map recordRow) := by
  constructor
  · rfl
  · intro recs h
    exact ⟨{ sheet_name := ("USDT_Transfers"), header := EXPORT_COLUMNS,
             rows := recs.map recordRow },
      by simp [generate_excel_report, h], rfl, rfl, rfl⟩

/-- C7 witness: exporting one concrete record. -/
theorem c7_report_export_witness :
    ∃ rep, generate_excel_report [rec0] = .ok rep ∧
      rep.sheet_name = ("USDT_Transfers") ∧
      rep.header = ["交易时间", "付款方 (From)", "收款方 (To)", "金额 (USDT)",
        "手续费 (ETH)", "交易哈希 (TxHash)"] ∧
      rep.rows = [rec0].map recordRow :=
  c7_report_export.2 [rec0] (by simp)

-- ---------------------------------------------------------------------
-- Claim C8
-- ---------------------------------------------------------------------

/-- C8 counterexample: with `max_pages = 1` and a full page 1, the code
performs an inter-page sleep even though no further page is requested
(one call, one sleep), contradicting the claim that no sleep occurs after
the final allowed page. -/
theorem c8_counterexample :
    callsOf (fetchUsdtTransfers (fun _ => fullSinglePage) 1 1 none) = some 1 ∧
    sleepsOf (fetchUsdtTransfers (fun _ => fullSinglePage) 1 1 none) = some 1 := by
  constructor
  · decide
  · decide

/-- C8 (amended): the fetcher sleeps once after every fully processed
success page, including the last allowed one: on benign responses, when a
stop condition occurs within the budget the sleep count is the stopping
page number minus one, and when none occurs it equals `max_pages` - so a
sleep does follow the `max_pages`-th page when that page was full. -/
theorem c8_sleep_amended (R : ℕ → HttpResponse) (ps : ℕ) (mv : Option ℚ) (mp : ℕ)
    (hben : ∀ p, 1 ≤ p → p ≤ mp → benignPage (R p) mv) :
    ∃ res, fetchUsdtTransfers R ps mp mv = .ok res ∧
      (anyStop R ps mp = true → res.sleeps + 1 = codeStopPage R ps mp) ∧
      (anyStop R ps mp = false → res.sleeps = mp) := by
  obtain ⟨res, heq, hc, hst, hsf⟩ := fetchGo_benign R ps mv mp 1 [] 0 0 le_rfl
    (fun p hp1 hp2 => hben p hp1 (by omega))
  refine ⟨res, heq, ?_, ?_⟩
  · intro h
    have h2 := hst h
    simp only [codeStopPage]
    omega
  · intro h
    have h2 := hsf h
    have h3 := firstStopFrom_of_no_stop (fun p => codeStops (R p) ps) mp 1 h
    rw [h3] at h2
    omega

/-- C8 witness: two full pages at page size 1 with a budget of 2 - the
fetch makes two calls and two sleeps, the second sleep after the final
allowed page. -/
theorem c8_sleep_amended_witness :
    ∃ res, fetchUsdtTransfers (fun _ => fullSinglePage) 1 2 none = .ok res ∧
      (anyStop (fun _ => fullSinglePage) 1 2 = true →
        res.sleeps + 1 = codeStopPage (fun _ => fullSinglePage) 1 2) ∧
      (anyStop (fun _ => fullSinglePage) 1 2 = false → res.sleeps = 2) :=
  c8_sleep_amended (fun _ => fullSinglePage) 1 none 2
    (fun _ _ _ => ⟨rfl, Or.inl rfl, fun _ => ⟨[rec0], rfl⟩⟩)

-- ---------------------------------------------------------------------
-- Claim C9
-- ---------------------------------------------------------------------

/-- C9: absent numeric fields are defaulted, not errors: a missing `value`
yields amount 0, a missing `gasPrice` or `gasUsed` yields fee 0, a missing
`timeStamp` yields the UTC epoch ISO timestamp; normalization succeeds
whenever every present numeric field is a decimal-integer string (absent
fields default to the parseable "0"), so only a present non-decimal string
can make it throw. -/
theorem c9_missing_field_defaults (item : RawItem) (h : numericFieldsOk item) :
    ∃ rec, transformItem none item = .ok (some rec) ∧
      (item.value = none → rec.amount_usdt = 0) ∧
      ((item.gasPrice = none ∨ item.gasUsed = none) → rec.fee_eth = 0) ∧
      (item.timeStamp = none → rec.timestamp = ("1970-01-01T00:00:00+00:00")) := by
  obtain ⟨hv1, hgp1, hgu1, hts1⟩ := h
  obtain ⟨v, hv⟩ := Option.isSome_iff_exists.mp hv1
  obtain ⟨gp, hgp⟩ := Option.isSome_iff_exists.mp hgp1
  obtain ⟨gu, hgu⟩ := Option.isSome_iff_exists.mp hgu1
  obtain ⟨ts, hts⟩ := Option.isSome_iff_exists.mp hts1
  refine ⟨_, transformItem_ok none item v gp gu ts hv hgp hgu hts rfl, ?_, ?_, ?_⟩
  · intro hnone
    have hv0 : v = 0 := pyIntDefault_zero item.value v hnone hv
    show Rat.divInt v ((10 : ℤ) ^ USDT_DECIMALS) = 0
    rw [hv0]
    decide
  · intro hor
    have hmul : gp * gu = 0 := by
      rcases hor with hh | hh
      · rw [pyIntDefault_zero item.gasPrice gp hh hgp, zero_mul]
      · rw [pyIntDefault_zero item.gasUsed gu hh hgu, mul_zero]
    show Rat.divInt (gp * gu) ((10 : ℤ) ^ 18) = 0
    rw [hmul]
    decide
  · intro hnone
    have hts0 : ts = 0 := pyIntDefault_zero item.timeStamp ts hnone hts
    show isoformatUTC ts = ("1970-01-01T00:00:00+00:00")
    rw [hts0]
    decide

/-- C9 witness: an item with every field absent normalizes to amount 0,
fee 0 and the epoch timestamp. -/
theorem c9_missing_field_defaults_witness :
    ∃ rec, transformItem none allMissingItem = .ok (some rec) ∧
      rec.amount_usdt = 0 ∧ rec.fee_eth = 0 ∧
      rec.timestamp = ("1970-01-01T00:00:00+00:00") := by
  obtain ⟨rec, h1, h2, h3, h4⟩ := c9_missing_field_defaults allMissingItem
    ⟨by decide, by decide, by decide, by decide⟩
  exact ⟨rec, h1, h2 rfl, h3 (Or.inl rfl), h4 rfl⟩

-- ---------------------------------------------------------------------
-- Claim C10
-- ---------------------------------------------------------------------

/-- C10: a non-integer (non-empty) value in the secrets store is silently
ignored by `get_chain_id` - the lookup behaves exactly as if the secret
were absent, defaulting to chain id 1 when the environment variable is
also unset - and the only way `get_chain_id` raises is a present,
non-empty, non-integer environment value. -/
theorem c10_chain_id_config (s : String) (hne : s ≠ ("")) (hbad : pyInt? s = none)
    (env : Option String) :
    get_chain_id (some s) env = get_chain_id none env ∧
    get_chain_id (some s) none = .ok DEFAULT_CHAIN_ID ∧
    ((∃ e, get_chain_id (some s) env = .error e) ↔
      ∃ v, env = some v ∧ v ≠ ("") ∧ pyInt? v = none) := by
  have key : ∀ e2 : Option String, get_chain_id (some s) e2 = get_chain_id none e2 := by
    intro e2
    unfold get_chain_id
    simp [Option.bind, hne, hbad]
  refine ⟨key env, ?_, ?_⟩
  · rw [key none]
    rfl
  · rw [key env]
    cases env with
    | none =>
      constructor
      · rintro ⟨e, he⟩
        exact Except.noConfusion he
      · rintro ⟨v, hv, _⟩
        cases hv
    | some v =>
      by_cases hv0 : v = ("")
      · subst hv0
        constructor
        · rintro ⟨e, he⟩
          rw [show get_chain_id none (some ("")) = .ok DEFAULT_CHAIN_ID from rfl] at he
          exact Except.noConfusion he
        · rintro ⟨v2, hv2, hne2, _⟩
          injection hv2 with h'
          exact (hne2 h'.symm).elim
      · cases hpv : pyInt? v with
        | some n =>
          constructor
          · rintro ⟨e, he⟩
            rw [show get_chain_id none (some v) = .ok n from by
              unfold get_chain_id
              simp [hv0, hpv]] at he
            exact Except.noConfusion he
          · rintro ⟨v2, hv2, _, hbad2⟩
            injection hv2 with h'
            rw [← h', hpv] at hbad2
            exact Option.noConfusion hbad2
        | none =>
          constructor
          · intro _
            exact ⟨v, rfl, hv0, hpv⟩
          · intro _
            refine ⟨.etherscanError ("ETHERSCAN_CHAIN_ID must be an integer."), ?_⟩
            unfold get_chain_id
            simp [hv0, hpv]

/-- C10 witness: the non-integer secret "abc" is ignored and the
non-integer environment value "xyz" raises. -/
theorem c10_chain_id_config_witness :
    get_chain_id (some ("abc")) (some ("xyz")) = get_chain_id none (some ("xyz")) ∧
    (∃ e, get_chain_id (some ("abc")) (some ("xyz")) = .error e) := by
  have h := c10_chain_id_config ("abc") (by decide) (by decide) (some ("xyz"))
  exact ⟨h.1, h.2.2.mpr ⟨("xyz"), rfl, by decide, by decide⟩⟩
